import Mathlib

/-!
Shallow embedding of the census-api-apps download pipeline
(src/server.py) and variable search (src/acs_database.py),
with theorems checking the specification's claims against it.

Python strings are modelled by Lean `String`, but every string
operation the code uses (upper, strip, split, …) is re-implemented
below by structural recursion on the character list so that all
definitions reduce in the kernel.  Python `dict`s are modelled by
insertion-ordered association lists, matching CPython's documented
iteration order and update-in-place semantics.
-/

namespace CensusApp

/-! ### Character-list string primitives (Python `str` methods) -/

/-- Python `str.upper()` restricted to the ASCII range that the
repository's tokens use. -/
def upperStr (s : String) : String := ⟨s.data.map Char.toUpper⟩

/-- Python `str.strip()` with no argument: remove leading and trailing
whitespace. -/
def stripStr (s : String) : String :=
  ⟨((s.data.dropWhile Char.isWhitespace).reverse.dropWhile Char.isWhitespace).reverse⟩

/-- Python `str.rstrip('_')`: remove trailing underscores. -/
def rstripUnderscore (s : String) : String :=
  ⟨((s.data.reverse.dropWhile (fun c => c = '_')).reverse)⟩

/-- Python `s[:-1]`: drop the last character. -/
def dropLast1 (s : String) : String := ⟨s.data.dropLast⟩

/-- Python `s.endswith(t)`. -/
def endsWithStr (s t : String) : Bool := t.data.isSuffixOf s.data

/-- Python `s.startswith(t)`. -/
def startsWithStr (s t : String) : Bool := t.data.isPrefixOf s.data

/-- Python `c in s` for a single character. -/
def containsChar (s : String) (c : Char) : Bool := s.data.contains c

/-- Python `str.split(sep)` for a one-character separator: splits at every
occurrence, keeping empty fragments (so `"".split(',') == ['']`). -/
def splitCharAux (c : Char) : List Char → List (List Char)
  | [] => [[]]
  | x :: xs =>
    match splitCharAux c xs with
    | [] => [[]]
    | g :: gs => if x = c then [] :: g :: gs else (x :: g) :: gs

def splitChar (c : Char) (s : String) : List String :=
  (splitCharAux c s.data).map (fun l => ⟨l⟩)

/-- Python `str.split()` with no argument: split on whitespace runs,
dropping empty fragments. -/
def splitWs (s : String) : List String :=
  ((splitCharAux ' ' ((s.data.map (fun c => if c.isWhitespace then ' ' else c)))).filter
    (fun l => l ≠ [])).map (fun l => ⟨l⟩)

/-- Python `s.split(sep, 1)`: split at the first occurrence only.
Returns `none` when the separator does not occur. -/
def splitOnce (c : Char) (s : String) : Option (String × String) :=
  match splitCharAux c s.data with
  | [] => none
  | [_] => none
  | g :: gs => some (⟨g⟩, ⟨List.intercalate [c] gs⟩)

/-- Python `str.lower()` restricted to ASCII. -/
def lowerStr (s : String) : String := ⟨s.data.map Char.toLower⟩

/-- `pat` occurs as a contiguous sublist of `hay`. -/
def isInfixL (pat : List Char) : List Char → Bool
  | [] => pat.isEmpty
  | c :: cs => pat.isPrefixOf (c :: cs) || isInfixL pat cs

/-- Case-insensitive substring test: the semantics of SQLite
`field LIKE '%pat%'` (case-insensitive over ASCII). -/
def containsCI (hay pat : String) : Bool :=
  isInfixL (lowerStr pat).data (lowerStr hay).data

/-- `int(s)` for a (stripped) decimal string: optional sign followed by
at least one ASCII digit; anything else raises in Python, modelled as
`none`.  (CPython additionally accepts digit-group underscores and
unicode digits; the repository never feeds it those.) -/
def digitsToNat : List Char → Option Nat
  | [] => none
  | [c] => if c.isDigit then some (c.toNat - 48) else none
  | c :: cs =>
    if c.isDigit then
      match digitsToNat cs with
      | some n => some ((c.toNat - 48) * 10 ^ cs.length + n)
      | none => none
    else none

def parseIntStr (s : String) : Option Int :=
  match (stripStr s).data with
  | '+' :: rest => (digitsToNat rest).map Int.ofNat
  | '-' :: rest => (digitsToNat rest).map (fun n => -(n : Int))
  | l => (digitsToNat l).map Int.ofNat

/-! ### Generic insertion sorts

`sortLe` models Python's `list.sort()` / SQL `ORDER BY` for a total
`≤` test; `dedupSort` models `sorted(set(xs))`: the strictly
increasing enumeration of the distinct elements. -/

def insertLe {α : Type} (le : α → α → Bool) (x : α) : List α → List α
  | [] => [x]
  | y :: ys => if le x y then x :: y :: ys else y :: insertLe le x ys

def sortLe {α : Type} (le : α → α → Bool) (l : List α) : List α :=
  l.foldr (insertLe le) []

def insOrd {α : Type} [LinearOrder α] (x : α) : List α → List α
  | [] => [x]
  | y :: ys => if x = y then y :: ys else if x < y then x :: y :: ys else y :: insOrd x ys

def dedupSort {α : Type} [LinearOrder α] (l : List α) : List α :=
  l.foldr insOrd []

/-! ### Variable catalog and token resolution (src/server.py lines 43-102)

`variables.json` yields a dict from variable id to a metadata dict; of
that metadata only the `label` field is read (by `pretty_label`), so a
catalog is an insertion-ordered association list id ↦ label.  A missing
`label` key and an empty label are both falsy in Python and behave
identically downstream, so both are modelled by `""`. -/

def Catalog : Type := List (String × String)

def catalogKeys (meta : Catalog) : List String := meta.map Prod.fst

/-- Python `name in variables_meta` (dict key membership). -/
def hasVar (meta : Catalog) (v : String) : Bool := decide (v ∈ catalogKeys meta)

/-- Boolean string comparison used for Python `list.sort()` on `str`,
which is lexicographic by code point, as is Lean's `String` order. -/
def strLe (a b : String) : Bool := decide (a ≤ b)

/-- `list_table_variables(variables_meta, table_id, include_moe)`:
all catalog keys of the form `TABLE_…` ending in `E` (or `M` when
`include_moe`), sorted. -/
def list_table_variables (meta : Catalog) (table_id : String) (include_moe : Bool) :
    List String :=
  sortLe strLe ((catalogKeys meta).filter (fun v =>
    startsWithStr v (stripStr (upperStr table_id) ++ "_") &&
      (endsWithStr v "E" || (include_moe && endsWithStr v "M"))))

/-- `raw.upper().strip()`: token normalisation at the top of the
resolver loop. -/
def normTok (raw : String) : String := stripStr (upperStr raw)

/-- One iteration of the loop in `resolve_requested_variables`: the
variables a single raw token contributes to `resolved`. -/
def resolveToken (meta : Catalog) (raw : String) (include_moe : Bool) : List String :=
  if normTok raw = "" then []
  else if endsWithStr (normTok raw) "*" then
    list_table_variables meta (rstripUnderscore (dropLast1 (normTok raw))) include_moe
  else if containsChar (normTok raw) '_' then
    (if hasVar meta (normTok raw ++ "E") then [normTok raw ++ "E"] else []) ++
    (if include_moe && hasVar meta (normTok raw ++ "M") then [normTok raw ++ "M"] else [])
  else
    (if hasVar meta (normTok raw ++ "_001" ++ "E") then [normTok raw ++ "_001" ++ "E"] else []) ++
    (if include_moe && hasVar meta (normTok raw ++ "_001" ++ "M") then
      [normTok raw ++ "_001" ++ "M"] else [])

/-- `resolve_requested_variables(variables_meta, tokens, include_moe)`:
the loop accumulates `resolved` by extension/append, then returns
`sorted(set(resolved))`. -/
def resolve_requested_variables (meta : Catalog) (tokens : List String)
    (include_moe : Bool) : List String :=
  dedupSort ((tokens.map (fun raw => resolveToken meta raw include_moe)).flatten)

/-! ### Batch assembly (src/server.py `build_csv_for_year`, lines 188-225)

A Census API batch response is its header row plus data rows.  The
loop body can raise (network error from `requests.get`, non-2xx from
`raise_for_status`, malformed JSON from `r.json()`); each batch is
therefore modelled as an `Except` value, and the loop propagates the
first error exactly as an uncaught Python exception would. -/

/-- A cell value: strings from the API, numbers installed later by the
calculation stage (Python floats, modelled exactly by rationals). -/
inductive Val where
  | str (s : String)
  | num (q : ℚ)
deriving DecidableEq, Repr

/-- A record: a Python dict modelled as an insertion-ordered
association list with at most one entry per key by construction. -/
def Rec : Type := List (String × Val)

instance : DecidableEq Rec := by unfold Rec; infer_instance

/-- Python `rec.get(k)` / `rec[k]`. -/
def recGet (r : Rec) (k : String) : Option Val :=
  (r.find? (fun p => p.1 == k)).map Prod.snd

/-- Python `rec[k] = v`: overwrite in place, else append. -/
def recSet : Rec → String → Val → Rec
  | [], k, v => [(k, v)]
  | (k', v') :: rest, k, v =>
    if k' = k then (k', v) :: rest else (k', v') :: recSet rest k v

/-- Python `old.update(new)`. -/
def recUpdate (old new : Rec) : Rec :=
  new.foldl (fun r p => recSet r p.1 p.2) old

/-- Python `dict(zip(headers, row))`. -/
def dictOfZip (headers : List String) (row : List String) : Rec :=
  (headers.zip row).foldl (fun r p => recSet r p.1 (Val.str p.2)) []

/-- One batch response: `data[0]` (headers) and `data[1:]` (rows). -/
def Batch : Type := List String × List (List String)

/-- `[g for g in ["state","county","tract","block group"] if g in headers]`. -/
def geoKeysOf (headers : List String) : List String :=
  ["state", "county", "tract", "block group"].filter (fun g => headers.contains g)

/-- `tuple(rec.get(k, "") for k in geo_keys)`. -/
def keyOf (geoKeys : List String) (r : Rec) : List Val :=
  geoKeys.map (fun k => (recGet r k).getD (Val.str ""))

/-- `rows_index`: a Python dict from geography key to record. -/
def Index : Type := List (List Val × Rec)

instance : DecidableEq Index := by unfold Index; infer_instance

def indexKeys (idx : Index) : List (List Val) := idx.map Prod.fst

/-- `rows_index[key].update(rec) if key in rows_index else rows_index[key] = rec`. -/
def indexInsert (idx : Index) (key : List Val) (r : Rec) : Index :=
  match idx with
  | [] => [(key, r)]
  | (k, r0) :: rest =>
    if k = key then (k, recUpdate r0 r) :: rest else (k, r0) :: indexInsert rest key r

/-- One iteration of the batch loop: extend `headers_all` with unseen
headers and merge every row into `rows_index`. -/
def stepBatch (st : Option (List String) × Index) (b : Batch) : Option (List String) × Index :=
  let headersAll :=
    match st.1 with
    | none => b.1
    | some hs => b.1.foldl (fun acc h => if acc.contains h then acc else acc ++ [h]) hs
  let gks := geoKeysOf b.1
  let idx := b.2.foldl (fun ix row =>
    let r := dictOfZip b.1 row
    indexInsert ix (keyOf gks r) r) st.2
  (some headersAll, idx)

/-- The batch loop of `build_csv_for_year`: the first failed batch
raises out of the function, otherwise every batch is merged. -/
def buildRowsAux (st : Option (List String) × Index) :
    List (Except String Batch) → Except String (Option (List String) × Index)
  | [] => Except.ok st
  | Except.error e :: _ => Except.error e
  | Except.ok b :: rest => buildRowsAux (stepBatch st b) rest

def build_rows (batches : List (Except String Batch)) :
    Except String (Option (List String) × Index) :=
  buildRowsAux (none, ([] : Index)) batches

/-! ### Calculated fields (src/server.py lines 227-270) -/

/-- One entry of the `calculations` payload; absent dict keys are `none`
(`calc.get('operator', '÷')` supplies the default operator). -/
structure CalcSpec where
  numerator : Option String
  denominator : Option String
  operator : Option String
  name : Option String
deriving DecidableEq, Repr

/-- Python truthiness of an optional string. -/
def truthyOpt : Option String → Bool
  | none => false
  | some s => decide (s ≠ "")

/-- `float(s)` on the decimal forms the pipeline encounters: optional
sign, digits with an optional fractional part.  Anything else raises,
modelled as `none`. -/
def decimalToRat (l : List Char) : Option ℚ :=
  match splitCharAux '.' l with
  | [intPart] => (digitsToNat intPart).map (fun n => (n : ℚ))
  | [intPart, fracPart] =>
    if intPart.isEmpty && fracPart.isEmpty then none
    else
      match (if intPart.isEmpty then some 0 else digitsToNat intPart),
            (if fracPart.isEmpty then some 0 else digitsToNat fracPart) with
      | some i, some f => some ((i : ℚ) + (f : ℚ) / ((10 : ℚ) ^ fracPart.length))
      | _, _ => none
  | _ => none

def parseFloat (s : String) : Option ℚ :=
  match (stripStr s).data with
  | '+' :: rest => decimalToRat rest
  | '-' :: rest => (decimalToRat rest).map Neg.neg
  | l => decimalToRat l

/-- `float(rec.get(field, 0) or 0)`: an absent field or falsy value
(empty string, zero) coerces to 0; an unparseable string raises,
modelled as `none`. -/
def coerceOperand : Option Val → Option ℚ
  | none => some 0
  | some (Val.str s) => if s = "" then some 0 else parseFloat s
  | some (Val.num q) => some q

/-- The operator dispatch, with `÷` (and the unknown-operator default)
guarding division by zero. -/
def opApply (op : String) (a b : ℚ) : ℚ :=
  if op = "÷" then (if b = 0 then 0 else a / b)
  else if op = "×" then a * b
  else if op = "+" then a + b
  else if op = "-" then a - b
  else (if b = 0 then 0 else a / b)

/-- The per-row `try` block: any coercion failure is caught and the
stored value is 0. -/
def calcRowValue (num den op : String) (r : Rec) : ℚ :=
  match coerceOperand (recGet r num), coerceOperand (recGet r den) with
  | some a, some b => opApply op a b
  | _, _ => 0

/-- The per-row value the claim describes instead: each operand
independently coerced with unparseable values treated as zero.
Modelled from the claim's words, for comparison with `calcRowValue`. -/
def coerceClaimed : Option Val → ℚ
  | none => 0
  | some (Val.str s) => if s = "" then 0 else (parseFloat s).getD 0
  | some (Val.num q) => q

def calcRowValueClaimed (num den op : String) (r : Rec) : ℚ :=
  opApply op (coerceClaimed (recGet r num)) (coerceClaimed (recGet r den))

/-- One iteration of the `calculations` loop over `(headers_all, rows_index)`. -/
def applyCalc (st : List String × Index) (c : CalcSpec) : List String × Index :=
  if truthyOpt c.numerator && truthyOpt c.denominator && truthyOpt c.name &&
      st.1.contains (c.numerator.getD "") && st.1.contains (c.denominator.getD "") then
    let nm := c.name.getD ""
    let idx2 := st.2.map (fun p =>
      (p.1, recSet p.2 nm (Val.num
        (calcRowValue (c.numerator.getD "") (c.denominator.getD "") (c.operator.getD "÷") p.2))))
    ((if st.1.contains nm then st.1 else st.1 ++ [nm]), idx2)
  else
    (st.1, st.2)

def applyCalcs (st : List String × Index) (calcs : List CalcSpec) : List String × Index :=
  calcs.foldl applyCalc st

/-! ### Display labels (src/server.py `pretty_label`, lines 277-290) -/

/-- `re.sub(r'!!+', ' -> ', label)`: each maximal run of two or more
exclamation marks becomes an arrow separator (structural recursion on
a fuel bound so the kernel can evaluate it). -/
def collapseBangsAux : Nat → List Char → List Char
  | 0, l => l
  | _ + 1, [] => []
  | fuel + 1, c :: cs =>
    if c = '!' then
      match cs with
      | '!' :: _ =>
        ' ' :: '-' :: '>' :: ' ' :: collapseBangsAux fuel (cs.dropWhile (fun x => x = '!'))
      | _ => c :: collapseBangsAux fuel cs
    else c :: collapseBangsAux fuel cs

def collapseBangs (l : List Char) : List Char := collapseBangsAux l.length l

/-- `.replace(':', '')`: removes every colon. -/
def removeColons (l : List Char) : List Char := l.filter (fun c => c ≠ ':')

def trimChars (l : List Char) : List Char :=
  ((l.dropWhile Char.isWhitespace).reverse.dropWhile Char.isWhitespace).reverse

/-- The full formatting transform applied by `pretty_label`. -/
def prettyTransform (s : String) : String :=
  ⟨trimChars (removeColons (collapseBangs s.data))⟩

/-- `variables_meta.get(var, {}).get("label") or var`. -/
def labelLookup (meta : Catalog) (var : String) : String :=
  match meta.find? (fun p => p.1 == var) with
  | some p => if p.2 = "" then var else p.2
  | none => var

def pretty_label (meta : Catalog) (var : String) : String :=
  prettyTransform (labelLookup meta var)

/-- The transform the claim describes instead: strip only a trailing
colon.  Modelled from the claim's words, for comparison with
`pretty_label`. -/
def stripTrailingColon (l : List Char) : List Char :=
  match l.reverse with
  | ':' :: rest => rest.reverse
  | _ => l

def prettyLabelClaimed (meta : Catalog) (var : String) : String :=
  ⟨trimChars (stripTrailingColon (collapseBangs (labelLookup meta var).data))⟩

/-! ### Year parsing (src/server.py `parse_years`, lines 154-186)

`parse_years` is called with its default `default=2023` at every call
site, so the default is inlined.  The possible argument shapes are
`None`, `int` and `str`. -/

inductive PyValue where
  | pynone
  | pyint (n : Int)
  | pystr (s : String)
deriving DecidableEq, Repr

/-- `range(start, end + 1)` over integers. -/
def yearRange (a b : Int) : List Int :=
  (List.range (b + 1 - a).toNat).map (fun i => a + i)

/-- The contribution of one comma-separated fragment to the `years`
set: a single year, an (endpoint-normalised) range, or nothing when
`int()` raises. -/
def parsePart (part : String) : List Int :=
  let p := stripStr part
  if p = "" then []
  else if containsChar p '-' then
    match splitOnce '-' p with
    | none => []
    | some (a, b) =>
      match parseIntStr a, parseIntStr b with
      | some x, some y => if x > y then yearRange y x else yearRange x y
      | _, _ => []
  else
    match parseIntStr p with
    | some y => [y]
    | none => []

/-- The filter `2010 <= y <= 2099` applied to the parsed year set. -/
def inYearRange (y : Int) : Bool := decide (2010 ≤ y) && decide (y ≤ 2099)

/-- All years contributed by the comma fragments of the stripped input. -/
def yearCandidates (t : String) : List Int :=
  ((splitChar ',' t).map parsePart).flatten

def parse_years (value : PyValue) : List Int :=
  match value with
  | PyValue.pyint n => [n]
  | PyValue.pynone => [2023]
  | PyValue.pystr s =>
    if stripStr s = "" then [2023]
    else if dedupSort ((yearCandidates (stripStr s)).filter inYearRange) = [] then [2023]
    else dedupSort ((yearCandidates (stripStr s)).filter inYearRange)

/-! ### The download endpoint's multi-year validation (src/server.py
lines 314-341)

`fetch_variables_metadata` performs network I/O; its observable result
per year is either a catalog or a raised exception, modelled by
`Option Catalog`.  After a successful validation the endpoint builds
one artifact per requested year; each artifact's content is driven by
that year's resolved variable list, which stands in for the CSV bytes
here. -/

inductive DownloadOutcome where
  | clientError (message : String)
  | artifacts (files : List (Int × List String))
deriving DecidableEq, Repr

def isClientError : DownloadOutcome → Bool
  | DownloadOutcome.clientError _ => true
  | DownloadOutcome.artifacts _ => false

def joinSep (sep : String) : List String → String
  | [] => ""
  | [x] => x
  | x :: xs => x ++ sep ++ joinSep sep xs

def natToStrAux : Nat → Nat → List Char
  | 0, _ => []
  | fuel + 1, n =>
    if n < 10 then [Char.ofNat (48 + n)]
    else natToStrAux fuel (n / 10) ++ [Char.ofNat (48 + n % 10)]

def natToStr (n : Nat) : String := ⟨natToStrAux (n + 1) n⟩

def intToStr : Int → String
  | Int.ofNat n => natToStr n
  | Int.negSucc n => "-" ++ natToStr (n + 1)

/-- The validation loop: a year is bad when its metadata fetch raises
or the tokens resolve to no variables. -/
def bad_years (meta : Int → Option Catalog) (years : List Int) (tokens : List String)
    (moe : Bool) : List Int :=
  years.filter (fun y =>
    match meta y with
    | none => true
    | some cat => (resolve_requested_variables cat tokens moe).isEmpty)

def noVarsMessage (bad : List Int) : String :=
  "No variables found for the requested tables in year(s): " ++
    joinSep ", " (bad.map intToStr)

def download (meta : Int → Option Catalog) (years : List Int) (tokens : List String)
    (moe : Bool) : DownloadOutcome :=
  if tokens = [] then
    DownloadOutcome.clientError "Please provide at least one ACS table ID"
  else if bad_years meta years tokens moe ≠ [] then
    DownloadOutcome.clientError (noVarsMessage (bad_years meta years tokens moe))
  else
    DownloadOutcome.artifacts (years.map (fun y =>
      (y, resolve_requested_variables ((meta y).getD []) tokens moe)))

/-! ### Variable search (src/acs_database.py `search_variables`,
lines 80-150)

A database row carries the five selected columns.  SQLite `LIKE
'%pat%'` is `containsCI`; `ORDER BY` is modelled by a sort that is
consistent with the stated keys (SQLite leaves the order of fully
tied rows unspecified, and the claims say nothing about such ties). -/

structure VRow where
  id : String
  name : String
  concept : String
  group_name : String
  year : Int
deriving DecidableEq, Repr

/-- `name LIKE ? OR concept LIKE ? OR id LIKE ? OR group_name LIKE ?`
with the whole-query pattern. -/
def phraseMatch (term : String) (r : VRow) : Bool :=
  containsCI r.name term || containsCI r.concept term ||
    containsCI r.id term || containsCI r.group_name term

/-- The `CASE` ranking: phrase in name, then in id, then in concept,
then anything else. -/
def priorityOf (term : String) (r : VRow) : Nat :=
  if containsCI r.name term then 1
  else if containsCI r.id term then 2
  else if containsCI r.concept term then 3
  else 4

/-- `ORDER BY CASE …, name` as a boolean total preorder. -/
def rankLe (term : String) (a b : VRow) : Bool :=
  decide (priorityOf term a < priorityOf term b) ||
    (decide (priorityOf term a = priorityOf term b) && strLe a.name b.name)

/-- `ORDER BY name`. -/
def nameLe (a b : VRow) : Bool := strLe a.name b.name

/-- Second-pass `WHERE`: every query word matches one of the four
fields. -/
def wordsMatch (term : String) (r : VRow) : Bool :=
  (splitWs term).all (fun w =>
    containsCI r.name w || containsCI r.concept w ||
      containsCI r.id w || containsCI r.group_name w)

/-- The first query: phrase matches, ranked, `LIMIT limit`. -/
def firstPass (rows : List VRow) (term : String) (limit : Nat) : List VRow :=
  (sortLe (rankLe term) (rows.filter (phraseMatch term))).take limit

/-- The second query: word matches not already returned, ordered by
name, `LIMIT (limit - len(results))`. -/
def secondPass (rows : List VRow) (term : String) (limit : Nat) : List VRow :=
  (sortLe nameLe (rows.filter (fun r =>
    wordsMatch term r && !(((firstPass rows term limit).map VRow.id).contains r.id)))).take
    (limit - (firstPass rows term limit).length)

def search_variables (rows : List VRow) (term : String) (limit : Nat) : List VRow :=
  if (splitWs term).isEmpty then []
  else if (firstPass rows term limit).length < limit then
    firstPass rows term limit ++ secondPass rows term limit
  else firstPass rows term limit

/-! ## Theorems -/

/-! ### General lemmas -/

theorem contains_eq_false_iff {α : Type} [BEq α] [LawfulBEq α] (l : List α) (a : α) :
    l.contains a = false ↔ a ∉ l := by
  rw [show l.contains a = List.elem a l from rfl, Bool.eq_false_iff]
  exact not_congr List.elem_iff

theorem contains_eq_true_iff {α : Type} [BEq α] [LawfulBEq α] (l : List α) (a : α) :
    l.contains a = true ↔ a ∈ l := by
  rw [show l.contains a = List.elem a l from rfl]
  exact List.elem_iff

/-! ### Sorting lemmas -/

theorem mem_insertLe {α : Type} (le : α → α → Bool) (x : α) (l : List α) (z : α) :
    z ∈ insertLe le x l ↔ z = x ∨ z ∈ l := by
  induction l with
  | nil => simp [insertLe]
  | cons y ys ih =>
    by_cases h : le x y = true
    · simp [insertLe, h]
    · rw [insertLe, if_neg h]
      simp only [List.mem_cons, ih]
      tauto

theorem mem_sortLe {α : Type} (le : α → α → Bool) (l : List α) (z : α) :
    z ∈ sortLe le l ↔ z ∈ l := by
  induction l with
  | nil => simp [sortLe]
  | cons y ys ih =>
    simp only [sortLe, List.foldr] at ih ⊢
    rw [mem_insertLe, ih]
    simp

theorem perm_insertLe {α : Type} (le : α → α → Bool) (x : α) (l : List α) :
    (insertLe le x l).Perm (x :: l) := by
  induction l with
  | nil => simp [insertLe]
  | cons y ys ih =>
    by_cases h : le x y = true
    · rw [insertLe, if_pos h]
    · rw [insertLe, if_neg h]
      exact (ih.cons y).trans (List.Perm.swap x y ys)

theorem perm_sortLe {α : Type} (le : α → α → Bool) (l : List α) :
    (sortLe le l).Perm l := by
  induction l with
  | nil => simp [sortLe]
  | cons y ys ih =>
    simp only [sortLe, List.foldr] at ih ⊢
    exact (perm_insertLe le y _).trans (ih.cons y)

theorem pairwise_insertLe {α : Type} (le : α → α → Bool)
    (htot : ∀ a b, le a b = true ∨ le b a = true)
    (htrans : ∀ a b c, le a b = true → le b c = true → le a c = true)
    (x : α) (l : List α) (h : l.Pairwise (fun a b => le a b = true)) :
    (insertLe le x l).Pairwise (fun a b => le a b = true) := by
  induction l with
  | nil => simp [insertLe]
  | cons y ys ih =>
    rcases List.pairwise_cons.mp h with ⟨hy, hys⟩
    by_cases hxy : le x y = true
    · rw [insertLe, if_pos hxy]
      refine List.pairwise_cons.mpr ⟨?_, h⟩
      intro z hz
      rcases List.mem_cons.mp hz with rfl | hz
      · exact hxy
      · exact htrans x y z hxy (hy z hz)
    · have hyx : le y x = true := (htot x y).resolve_left hxy
      rw [insertLe, if_neg hxy]
      refine List.pairwise_cons.mpr ⟨?_, ih hys⟩
      intro z hz
      rcases (mem_insertLe le x ys z).mp hz with rfl | hz
      · exact hyx
      · exact hy z hz

theorem pairwise_sortLe {α : Type} (le : α → α → Bool)
    (htot : ∀ a b, le a b = true ∨ le b a = true)
    (htrans : ∀ a b c, le a b = true → le b c = true → le a c = true)
    (l : List α) : (sortLe le l).Pairwise (fun a b => le a b = true) := by
  induction l with
  | nil => simp [sortLe]
  | cons y ys ih => exact pairwise_insertLe le htot htrans y _ ih

theorem mem_insOrd {α : Type} [LinearOrder α] (x : α) (l : List α) (z : α) :
    z ∈ insOrd x l ↔ z = x ∨ z ∈ l := by
  induction l with
  | nil => simp [insOrd]
  | cons y ys ih =>
    by_cases h1 : x = y
    · subst h1; simp [insOrd]
    · by_cases h2 : x < y
      · rw [insOrd, if_neg h1, if_pos h2]; simp
      · rw [insOrd, if_neg h1, if_neg h2]
        simp only [List.mem_cons, ih]
        tauto

theorem pairwise_insOrd {α : Type} [LinearOrder α] (x : α) (l : List α)
    (h : l.Pairwise (· < ·)) : (insOrd x l).Pairwise (· < ·) := by
  induction l with
  | nil => simp [insOrd]
  | cons y ys ih =>
    rcases List.pairwise_cons.mp h with ⟨hy, hys⟩
    by_cases h1 : x = y
    · subst h1; rw [insOrd, if_pos rfl]; exact h
    · by_cases h2 : x < y
      · rw [insOrd, if_neg h1, if_pos h2]
        refine List.pairwise_cons.mpr ⟨?_, h⟩
        intro z hz
        rcases List.mem_cons.mp hz with rfl | hz
        · exact h2
        · exact lt_trans h2 (hy z hz)
      · have hyx : y < x := lt_of_le_of_ne (not_lt.mp h2) (Ne.symm h1)
        rw [insOrd, if_neg h1, if_neg h2]
        refine List.pairwise_cons.mpr ⟨?_, ih hys⟩
        intro z hz
        rcases (mem_insOrd x ys z).mp hz with rfl | hz
        · exact hyx
        · exact hy z hz

theorem pairwise_dedupSort {α : Type} [LinearOrder α] (l : List α) :
    (dedupSort l).Pairwise (· < ·) := by
  induction l with
  | nil => simp [dedupSort]
  | cons y ys ih => exact pairwise_insOrd y _ ih

theorem mem_dedupSort {α : Type} [LinearOrder α] (l : List α) (z : α) :
    z ∈ dedupSort l ↔ z ∈ l := by
  induction l with
  | nil => simp [dedupSort]
  | cons y ys ih => simp [dedupSort, mem_insOrd, List.foldr] at ih ⊢; tauto

theorem nodup_dedupSort {α : Type} [LinearOrder α] (l : List α) :
    (dedupSort l).Nodup :=
  (pairwise_dedupSort l).imp ne_of_lt

/-! ### Token resolution (C4, C5) -/

theorem mem_list_table_variables_keys (meta : Catalog) (table_id : String)
    (include_moe : Bool) :
    ∀ v ∈ list_table_variables meta table_id include_moe, v ∈ catalogKeys meta := by
  intro v hv
  rw [list_table_variables, mem_sortLe] at hv
  exact (List.mem_filter.mp hv).1

theorem mem_condEM (meta : Catalog) (moe : Bool) (base : String) (v : String)
    (hv : v ∈ (if hasVar meta (base ++ "E") then [base ++ "E"] else []) ++
          (if moe && hasVar meta (base ++ "M") then [base ++ "M"] else [])) :
    v ∈ catalogKeys meta := by
  rcases List.mem_append.mp hv with hv' | hv'
  · split_ifs at hv' with hc
    · simp only [List.mem_singleton] at hv'
      subst hv'
      exact of_decide_eq_true hc
    · simp at hv'
  · split_ifs at hv' with hc
    · simp only [List.mem_singleton] at hv'
      subst hv'
      simp only [Bool.and_eq_true] at hc
      exact of_decide_eq_true hc.2
    · simp at hv'

theorem mem_resolveToken_keys (meta : Catalog) (raw : String) (include_moe : Bool) :
    ∀ v ∈ resolveToken meta raw include_moe, v ∈ catalogKeys meta := by
  intro v hv
  by_cases h0 : normTok raw = ""
  · rw [resolveToken, if_pos h0] at hv; simp at hv
  · rw [resolveToken, if_neg h0] at hv
    by_cases h1 : endsWithStr (normTok raw) "*" = true
    · rw [if_pos h1] at hv
      exact mem_list_table_variables_keys meta _ include_moe v hv
    · rw [if_neg h1] at hv
      by_cases h2 : containsChar (normTok raw) '_' = true
      · rw [if_pos h2] at hv
        exact mem_condEM meta include_moe _ v hv
      · rw [if_neg h2] at hv
        exact mem_condEM meta include_moe _ v hv

/-- C4: the resolver output is strictly sorted (hence sorted and
duplicate-free) and every element is a key of the supplied catalog. -/
theorem resolve_requested_variables_sorted_nodup_keys (meta : Catalog)
    (tokens : List String) (include_moe : Bool) :
    (resolve_requested_variables meta tokens include_moe).Pairwise (· < ·) ∧
    (resolve_requested_variables meta tokens include_moe).Nodup ∧
    ∀ v ∈ resolve_requested_variables meta tokens include_moe, v ∈ catalogKeys meta := by
  refine ⟨pairwise_dedupSort _, nodup_dedupSort _, ?_⟩
  intro v hv
  rw [resolve_requested_variables, mem_dedupSort] at hv
  rcases List.mem_flatten.mp hv with ⟨l, hl, hvl⟩
  rcases List.mem_map.mp hl with ⟨raw, _, rfl⟩
  exact mem_resolveToken_keys meta raw include_moe v hvl

theorem resolve_requested_variables_sorted_nodup_keys_witness :
    "B01001_001E" ∈ catalogKeys [("B01001_001E", "a"), ("B01001_002E", "b")] :=
  (resolve_requested_variables_sorted_nodup_keys
    [("B01001_001E", "a"), ("B01001_002E", "b")] ["B01001"] false).2.2
    "B01001_001E" (by decide)

/-- C5: counterexample.  The claim says a `<table>_<line>` token whose
`stem+E` is absent from the catalog contributes nothing, in particular
no `stem+M` identifier.  But for a catalog holding only `B01001_003M`,
the token `B01001_003` with the margin-of-error flag set resolves to
`[B01001_003M]`: the `M` lookup is independent of the `E` lookup. -/
theorem resolve_missing_estimate_cex :
    resolve_requested_variables [("B01001_003M", "x")] ["B01001_003"] true =
      ["B01001_003M"] ∧
    resolve_requested_variables [("B01001_003M", "x")] ["B01001_003"] true ≠ [] :=
  ⟨by decide, by decide⟩

/-- C5 (amended): for a token with an internal separator (no wildcard),
when the catalog has no `stem+E` entry the token contributes no
estimate variable, but it still contributes `stem+M` when the
margin-of-error flag is set and `stem+M` is a catalog key; with the
flag clear, or with `stem+M` also absent, it contributes nothing. -/
theorem resolveToken_missing_estimate (meta : Catalog) (raw : String) (include_moe : Bool)
    (h0 : ¬ normTok raw = "") (h1 : endsWithStr (normTok raw) "*" = false)
    (h2 : containsChar (normTok raw) '_' = true)
    (h3 : hasVar meta (normTok raw ++ "E") = false) :
    resolveToken meta raw include_moe =
      if include_moe && hasVar meta (normTok raw ++ "M") then [normTok raw ++ "M"]
      else [] := by
  simp [resolveToken, h0, h1, h2, h3]

theorem resolveToken_missing_estimate_witness :
    resolveToken [("B01001_003M", "x")] "B01001_003" true = ["B01001_003M"] := by
  rw [resolveToken_missing_estimate [("B01001_003M", "x")] "B01001_003" true
    (by decide) (by decide) (by decide) (by decide)]
  decide

/-! ### Year parsing (C10) -/

/-- C10: counterexample.  The claim says every returned year lies in
2010..2099, but an integer input is returned as-is with no range
check: `parse_years(1999)` is `[1999]`. -/
theorem parse_years_int_bypasses_range_cex :
    parse_years (PyValue.pyint 1999) = [1999] ∧ ¬ (2010 ≤ (1999 : Int)) :=
  ⟨rfl, by decide⟩

/-- C10 (amended): an integer input is returned unchanged as a
singleton, with no range check; `None` yields the default `[2023]`.
For string inputs the parsed result is a non-empty strictly increasing
list of distinct years within 2010..2099: a reversed range is
normalised to ascending order, non-numeric fragments are ignored, and
when nothing in range parses the default `[2023]` is returned. -/
theorem parse_years_spec :
    (∀ n : Int, parse_years (PyValue.pyint n) = [n]) ∧
    parse_years PyValue.pynone = [2023] ∧
    (∀ s : String, parse_years (PyValue.pystr s) ≠ [] ∧
      (parse_years (PyValue.pystr s)).Pairwise (· < ·) ∧
      ∀ y ∈ parse_years (PyValue.pystr s), 2010 ≤ y ∧ y ≤ 2099) ∧
    parse_years (PyValue.pystr "2023-2018") = [2018, 2019, 2020, 2021, 2022, 2023] ∧
    parse_years (PyValue.pystr "2018, x20, 2020") = [2018, 2020] ∧
    parse_years (PyValue.pystr "2005") = [2023] := by
  refine ⟨fun n => rfl, rfl, fun s => ?_, by decide, by decide, by decide⟩
  have hdef : ([2023] : List Int) ≠ [] ∧ ([2023] : List Int).Pairwise (· < ·) ∧
      ∀ y ∈ ([2023] : List Int), 2010 ≤ y ∧ y ≤ 2099 := by
    refine ⟨by simp, by simp, ?_⟩
    intro y hy
    rw [List.mem_singleton] at hy
    subst hy
    exact ⟨by norm_num, by norm_num⟩
  by_cases ht : stripStr s = ""
  · rw [show parse_years (PyValue.pystr s) = [2023] from by simp [parse_years, ht]]
    exact hdef
  · by_cases ho : dedupSort ((yearCandidates (stripStr s)).filter inYearRange) = []
    · rw [show parse_years (PyValue.pystr s) = [2023] from by simp [parse_years, ht, ho]]
      exact hdef
    · rw [show parse_years (PyValue.pystr s) =
          dedupSort ((yearCandidates (stripStr s)).filter inYearRange) from by
        simp [parse_years, ht, ho]]
      refine ⟨ho, pairwise_dedupSort _, ?_⟩
      intro y hy
      rw [mem_dedupSort] at hy
      have h2 := (List.mem_filter.mp hy).2
      rw [inYearRange, Bool.and_eq_true, decide_eq_true_iff, decide_eq_true_iff] at h2
      exact h2

theorem parse_years_spec_witness :
    2010 ≤ (2018 : Int) ∧ (2018 : Int) ≤ 2099 :=
  (parse_years_spec.2.2.1 "2018, x20, 2020").2.2 2018 (by decide)

/-! ### Display labels (C8) -/

theorem mem_trimChars {c : Char} {l : List Char} (h : c ∈ trimChars l) : c ∈ l := by
  rw [trimChars, List.mem_reverse] at h
  have h2 := (List.dropWhile_sublist _).mem h
  rw [List.mem_reverse] at h2
  exact (List.dropWhile_sublist _).mem h2

/-- C8: counterexample.  The claim says only a trailing colon is
stripped, but `.replace(':', '')` removes every colon: for the label
`Estimate!!Total:!!Male` the code renders `Estimate -> Total -> Male`
while the claimed transform keeps the interior colon. -/
theorem pretty_label_interior_colon_cex :
    pretty_label [("V", "Estimate!!Total:!!Male")] "V" = "Estimate -> Total -> Male" ∧
    prettyLabelClaimed [("V", "Estimate!!Total:!!Male")] "V" =
      "Estimate -> Total: -> Male" ∧
    pretty_label [("V", "Estimate!!Total:!!Male")] "V" ≠
      prettyLabelClaimed [("V", "Estimate!!Total:!!Male")] "V" :=
  ⟨by decide, by decide, by decide⟩

/-- C8 (amended): the rendered label is obtained from the catalog's
label (or, for an unknown or label-less field, from the raw field name,
which passes through the same transform) by replacing every run of two
or more exclamation marks with an arrow separator, removing every
colon, and trimming surrounding whitespace; consequently no rendered
label contains a colon. -/
theorem pretty_label_spec (meta : Catalog) (var : String) :
    pretty_label [("W", "  A!!B:C!!!!D:  ")] "W" = "A -> BC -> D" ∧
    (meta.find? (fun p => p.1 == var) = none →
      pretty_label meta var = prettyTransform var) ∧
    ∀ c ∈ (pretty_label meta var).data, c ≠ ':' := by
  refine ⟨by decide, ?_, ?_⟩
  · intro h
    rw [pretty_label, labelLookup, h]
  · intro c hc
    have h1 : c ∈ removeColons (collapseBangs (labelLookup meta var).data) :=
      mem_trimChars hc
    have h2 := (List.mem_filter.mp h1).2
    exact of_decide_eq_true h2

theorem pretty_label_spec_witness :
    pretty_label [] "B01001_001E" = prettyTransform "B01001_001E" :=
  (pretty_label_spec [] "B01001_001E").2.1 (by decide)

/-! ### Multi-year download validation (C1) -/

/-- C1: counterexample.  The claim says a year whose tokens resolve to
nothing is reported as failed while a valid sibling year still yields
its artifact.  In the code the validation loop rejects the whole
request: with 2021 resolving to nothing and 2022 valid, the endpoint
returns a single client error naming 2021 and produces no artifact for
2022 (or any year). -/
theorem download_bad_year_fails_whole_request_cex :
    download
      (fun y => if y = 2021 then some [("B19013_001E", "z")]
        else if y = 2022 then some [("B01001_001E", "y")] else none)
      [2021, 2022] ["B01001"] false =
      DownloadOutcome.clientError
        "No variables found for the requested tables in year(s): 2021" ∧
    isClientError (download
      (fun y => if y = 2021 then some [("B19013_001E", "z")]
        else if y = 2022 then some [("B01001_001E", "y")] else none)
      [2021, 2022] ["B01001"] false) = true :=
  ⟨by decide, by decide⟩

/-- C1 (amended): when any requested year's metadata fetch fails or its
tokens resolve to the empty set, the endpoint rejects the entire
multi-year request with one client-error message listing exactly the
offending years, producing no artifact for any year; only when every
requested year validates does it build one artifact per year. -/
theorem download_rejects_when_any_year_bad (meta : Int → Option Catalog)
    (years : List Int) (tokens : List String) (moe : Bool)
    (htok : tokens ≠ []) :
    (bad_years meta years tokens moe ≠ [] →
      download meta years tokens moe =
        DownloadOutcome.clientError (noVarsMessage (bad_years meta years tokens moe))) ∧
    (bad_years meta years tokens moe = [] →
      download meta years tokens moe =
        DownloadOutcome.artifacts (years.map (fun y =>
          (y, resolve_requested_variables ((meta y).getD []) tokens moe)))) := by
  constructor
  · intro hbad
    rw [download, if_neg htok, if_pos hbad]
  · intro hgood
    rw [download, if_neg htok, if_neg (by simp [hgood])]

theorem download_rejects_when_any_year_bad_witness :
    download (fun _ => some [("B01001_001E", "y")]) [2021, 2022] ["B01001"] false =
      DownloadOutcome.artifacts
        [(2021, ["B01001_001E"]), (2022, ["B01001_001E"])] := by
  rw [(download_rejects_when_any_year_bad (fun _ => some [("B01001_001E", "y")])
    [2021, 2022] ["B01001"] false (by decide)).2 (by decide)]
  decide

/-! ### Calculated fields (C6, C7) -/

/-- C7: a calculation spec whose numerator or denominator is not in the
current header list is skipped entirely: the header list and every row
are left unchanged (so no partial column and no output header), and no
exception is possible. -/
theorem applyCalc_skips_missing_operand (headers : List String) (idx : Index)
    (c : CalcSpec)
    (h : headers.contains (c.numerator.getD "") = false ∨
      headers.contains (c.denominator.getD "") = false) :
    applyCalc (headers, idx) c = (headers, idx) := by
  rcases h with h | h <;> rw [contains_eq_false_iff] at h <;> simp [applyCalc, h]

theorem applyCalc_skips_missing_operand_witness :
    applyCalc (["NAME", "B01001_001E"], ([] : Index))
      { numerator := some "B01001_999E", denominator := some "B01001_001E",
        operator := some "÷", name := some "ratio" } =
      (["NAME", "B01001_001E"], ([] : Index)) :=
  applyCalc_skips_missing_operand ["NAME", "B01001_001E"] [] _ (Or.inl (by decide))

/-- C6: counterexample.  The claim says an unparseable operand is
treated as zero and the operator then applied; the code instead
catches the conversion error and stores 0 for the whole row value.
For numerator `"abc"`, denominator `"5"` and operator `+` the code
stores 0 where the claimed semantics gives 0 + 5 = 5. -/
theorem calc_unparseable_operand_cex :
    calcRowValue "N" "D" "+" [("N", Val.str "abc"), ("D", Val.str "5")] = 0 ∧
    calcRowValueClaimed "N" "D" "+" [("N", Val.str "abc"), ("D", Val.str "5")] = 5 ∧
    (0 : ℚ) ≠ 5 := by
  refine ⟨rfl, ?_, by norm_num⟩
  show opApply "+" (coerceClaimed (recGet [("N", Val.str "abc"), ("D", Val.str "5")] "N"))
    (coerceClaimed (recGet [("N", Val.str "abc"), ("D", Val.str "5")] "D")) = 5
  rw [show coerceClaimed (recGet [("N", Val.str "abc"), ("D", Val.str "5")] "N") =
    (0 : ℚ) from by decide]
  rw [show coerceClaimed (recGet [("N", Val.str "abc"), ("D", Val.str "5")] "D") =
    (5 : ℚ) from by decide]
  rw [opApply, if_neg (by decide), if_neg (by decide), if_pos rfl]
  norm_num

/-- C6 (amended): per-row calculation semantics.  A field absent from
the row coerces to zero; when both operands coerce, the operator is
applied with `÷` returning 0 on a zero denominator (and the usual
quotient otherwise) and `×`, `+`, `-` computing ordinary arithmetic;
when either operand is an unparseable string the stored value is 0
regardless of the operator. -/
theorem calcRowValue_semantics (num den op : String) (r : Rec) :
    (∀ a b : ℚ, coerceOperand (recGet r num) = some a →
      coerceOperand (recGet r den) = some b →
      calcRowValue num den op r = opApply op a b) ∧
    (coerceOperand (recGet r num) = none ∨ coerceOperand (recGet r den) = none →
      calcRowValue num den op r = 0) ∧
    (recGet r num = none → coerceOperand (recGet r num) = some 0) ∧
    (∀ a : ℚ, opApply "÷" a 0 = 0) ∧
    (∀ a b : ℚ, b ≠ 0 → opApply "÷" a b = a / b) ∧
    (∀ a b : ℚ, opApply "×" a b = a * b) ∧
    (∀ a b : ℚ, opApply "+" a b = a + b) ∧
    (∀ a b : ℚ, opApply "-" a b = a - b) := by
  refine ⟨?_, ?_, ?_, ?_, ?_, ?_, ?_, ?_⟩
  · intro a b ha hb
    rw [calcRowValue, ha, hb]
  · intro h
    rcases h with h | h
    · rw [calcRowValue, h]
    · cases hx : coerceOperand (recGet r num) <;> rw [calcRowValue, hx, h]
  · intro h
    rw [h]
    rfl
  · intro a
    rw [opApply, if_pos rfl, if_pos rfl]
  · intro a b hb
    rw [opApply, if_pos rfl, if_neg hb]
  · intro a b
    rw [opApply, if_neg (by decide), if_pos rfl]
  · intro a b
    rw [opApply, if_neg (by decide), if_neg (by decide), if_pos rfl]
  · intro a b
    rw [opApply, if_neg (by decide), if_neg (by decide), if_neg (by decide), if_pos rfl]

theorem calcRowValue_semantics_witness :
    calcRowValue "N" "D" "÷" [("N", Val.str "3"), ("D", Val.str "0")] = 0 := by
  have h := calcRowValue_semantics "N" "D" "÷" [("N", Val.str "3"), ("D", Val.str "0")]
  rw [h.1 3 0 (by decide) (by decide)]
  exact h.2.2.2.1 3

/-! ### Batch assembly (C2, C3) -/

theorem buildRowsAux_append_error (e : String) (post : List (Except String Batch)) :
    ∀ (pre : List (Except String Batch)), (∀ x ∈ pre, ∃ b, x = Except.ok b) →
      ∀ st, buildRowsAux st (pre ++ Except.error e :: post) = Except.error e
  | [], _, st => by rw [List.nil_append]; rfl
  | x :: xs, h, st => by
    obtain ⟨b, rfl⟩ := h x (List.mem_cons_self x xs)
    rw [List.cons_append]
    exact buildRowsAux_append_error e post xs
      (fun y hy => h y (List.mem_cons_of_mem _ hy)) (stepBatch st b)

/-- C2: counterexample.  The claim says a failed batch is caught and
skipped with the remaining batches still merged; in the code the batch
loop has no handler, so the first failure aborts the whole year even
though a later batch would have succeeded. -/
theorem batch_failure_aborts_year_cex :
    build_rows [Except.ok ((["NAME", "state", "county", "B01001_001E"],
        [["x", "13", "051", "1"]]) : Batch),
      Except.error "HTTPError",
      Except.ok ((["NAME", "state", "county", "B01001_002E"],
        [["x", "13", "051", "2"]]) : Batch)] = Except.error "HTTPError" := rfl

/-- C2 (amended): a failing batch request (network error, non-2xx
response, malformed JSON) propagates out of the year's batch loop: the
first failure aborts the whole year's build with that error, no merged
row set is produced, and later batches are not fetched. -/
theorem build_rows_aborts_on_failed_batch (pre : List (Except String Batch))
    (e : String) (post : List (Except String Batch))
    (h : ∀ x ∈ pre, ∃ b, x = Except.ok b) :
    build_rows (pre ++ Except.error e :: post) = Except.error e :=
  buildRowsAux_append_error e post pre h (none, [])

theorem build_rows_aborts_on_failed_batch_witness :
    build_rows [Except.ok ((["NAME"], [["a"]]) : Batch), Except.error "timeout"] =
      Except.error "timeout" :=
  build_rows_aborts_on_failed_batch [Except.ok (["NAME"], [["a"]])] "timeout" []
    (by intro x hx; rw [List.mem_singleton] at hx; exact ⟨_, hx⟩)

theorem recGet_recSet (r : Rec) (k : String) (v : Val) :
    recGet (recSet r k v) k = some v := by
  induction r with
  | nil => simp [recSet, recGet]
  | cons p rest ih =>
    by_cases h : p.1 = k
    · cases p
      rw [recSet]
      simp_all [recGet]
    · cases p
      rw [recSet]
      simp_all [recGet, List.find?]

theorem mem_indexKeys_indexInsert (idx : Index) (key : List Val) (r : Rec) (x : List Val) :
    x ∈ indexKeys (indexInsert idx key r) ↔ x = key ∨ x ∈ indexKeys idx := by
  induction idx with
  | nil => simp [indexInsert, indexKeys]
  | cons p rest ih =>
    cases p with
    | mk k0 r0 =>
      by_cases h : k0 = key
      · subst h
        rw [indexInsert, if_pos rfl]
        simp only [indexKeys, List.map_cons, List.mem_cons]
        tauto
      · rw [indexInsert, if_neg h]
        simp only [indexKeys, List.map_cons, List.mem_cons] at ih ⊢
        rw [ih]
        tauto

theorem nodup_indexKeys_indexInsert (idx : Index) (key : List Val) (r : Rec)
    (h : (indexKeys idx).Nodup) : (indexKeys (indexInsert idx key r)).Nodup := by
  induction idx with
  | nil => simp [indexInsert, indexKeys]
  | cons p rest ih =>
    cases p with
    | mk k0 r0 =>
      simp only [indexKeys, List.map_cons, List.nodup_cons] at h
      rcases h with ⟨hk0, hrest⟩
      by_cases hk : k0 = key
      · rw [indexInsert, if_pos hk]
        simp only [indexKeys, List.map_cons, List.nodup_cons]
        exact ⟨hk0, hrest⟩
      · rw [indexInsert, if_neg hk]
        simp only [indexKeys, List.map_cons, List.nodup_cons]
        refine ⟨?_, ih hrest⟩
        intro hmem
        rcases (mem_indexKeys_indexInsert rest key r k0).mp hmem with rfl | hmem
        · exact hk rfl
        · exact hk0 hmem

theorem nodup_indexKeys_foldl_insert (kf : List String → List Val)
    (rf : List String → Rec) :
    ∀ (rows : List (List String)) (ix : Index), (indexKeys ix).Nodup →
      (indexKeys (rows.foldl (fun a row => indexInsert a (kf row) (rf row)) ix)).Nodup
  | [], _, h => h
  | _row :: rest, ix, h =>
    nodup_indexKeys_foldl_insert kf rf rest _ (nodup_indexKeys_indexInsert ix _ _ h)

theorem nodup_indexKeys_stepBatch (st : Option (List String) × Index) (b : Batch)
    (h : (indexKeys st.2).Nodup) : (indexKeys (stepBatch st b).2).Nodup :=
  nodup_indexKeys_foldl_insert
    (fun row => keyOf (geoKeysOf b.1) (dictOfZip b.1 row))
    (fun row => dictOfZip b.1 row) b.2 st.2 h

theorem nodup_indexKeys_buildRowsAux :
    ∀ (batches : List (Except String Batch)) (st : Option (List String) × Index),
      (indexKeys st.2).Nodup → ∀ hs idx, buildRowsAux st batches = Except.ok (hs, idx) →
      (indexKeys idx).Nodup
  | [], st, h, hs, idx, heq => by
    rw [buildRowsAux] at heq
    cases heq
    exact h
  | Except.error e :: rest, st, h, hs, idx, heq => by
    rw [buildRowsAux] at heq
    cases heq
  | Except.ok b :: rest, st, h, hs, idx, heq =>
    nodup_indexKeys_buildRowsAux rest (stepBatch st b)
      (nodup_indexKeys_stepBatch st b h) hs idx heq

/-- C3: throughout batch merging, the row index holds at most one row
per geography key (its key list stays duplicate-free), a `recSet` on an
existing field overwrites it (new values win), and for two batches
carrying the same key with disjoint variable sets the merged index has
exactly one row for that key holding the union of both batches'
fields. -/
theorem build_rows_unique_geo_keys :
    (∀ (batches : List (Except String Batch)) (hs : Option (List String)) (idx : Index),
      build_rows batches = Except.ok (hs, idx) → (indexKeys idx).Nodup) ∧
    (∀ (r : Rec) (k : String) (v : Val), recGet (recSet r k v) k = some v) ∧
    build_rows [Except.ok ((["NAME", "state", "county", "B01001_001E"],
        [["Chatham County, Georgia", "13", "051", "296329"]]) : Batch),
      Except.ok ((["NAME", "state", "county", "B01001_002E"],
        [["Chatham County, Georgia", "13", "051", "143358"]]) : Batch)] =
      Except.ok (some ["NAME", "state", "county", "B01001_001E", "B01001_002E"],
        [([Val.str "13", Val.str "051"],
          [("NAME", Val.str "Chatham County, Georgia"), ("state", Val.str "13"),
           ("county", Val.str "051"), ("B01001_001E", Val.str "296329"),
           ("B01001_002E", Val.str "143358")])]) := by
  refine ⟨?_, recGet_recSet, rfl⟩
  intro batches hs idx heq
  exact nodup_indexKeys_buildRowsAux batches (none, []) (by simp [indexKeys]) hs idx heq

theorem build_rows_unique_geo_keys_witness :
    (indexKeys [([Val.str "13", Val.str "051"],
      ([("NAME", Val.str "x"), ("state", Val.str "13"),
        ("county", Val.str "051")] : Rec))]).Nodup :=
  build_rows_unique_geo_keys.1
    [Except.ok ((["NAME", "state", "county"], [["x", "13", "051"]]) : Batch)]
    (some ["NAME", "state", "county"])
    [([Val.str "13", Val.str "051"],
      [("NAME", Val.str "x"), ("state", Val.str "13"), ("county", Val.str "051")])]
    rfl

/-! ### Variable search (C9) -/

theorem strLe_total (a b : String) : strLe a b = true ∨ strLe b a = true := by
  rcases le_total a b with h | h
  · exact Or.inl (decide_eq_true h)
  · exact Or.inr (decide_eq_true h)

theorem strLe_trans (a b c : String) (h1 : strLe a b = true) (h2 : strLe b c = true) :
    strLe a c = true :=
  decide_eq_true (le_trans (of_decide_eq_true h1) (of_decide_eq_true h2))

theorem nameLe_total (a b : VRow) : nameLe a b = true ∨ nameLe b a = true :=
  strLe_total a.name b.name

theorem nameLe_trans (a b c : VRow) (h1 : nameLe a b = true) (h2 : nameLe b c = true) :
    nameLe a c = true :=
  strLe_trans a.name b.name c.name h1 h2

theorem rankLe_iff (term : String) (a b : VRow) :
    rankLe term a b = true ↔
      priorityOf term a < priorityOf term b ∨
      (priorityOf term a = priorityOf term b ∧ a.name ≤ b.name) := by
  simp [rankLe, strLe, Bool.or_eq_true, Bool.and_eq_true, decide_eq_true_iff]

theorem rankLe_total (term : String) (a b : VRow) :
    rankLe term a b = true ∨ rankLe term b a = true := by
  rw [rankLe_iff, rankLe_iff]
  rcases lt_trichotomy (priorityOf term a) (priorityOf term b) with h | h | h
  · exact Or.inl (Or.inl h)
  · rcases le_total a.name b.name with hn | hn
    · exact Or.inl (Or.inr ⟨h, hn⟩)
    · exact Or.inr (Or.inr ⟨h.symm, hn⟩)
  · exact Or.inr (Or.inl h)

theorem rankLe_trans (term : String) (a b c : VRow) (h1 : rankLe term a b = true)
    (h2 : rankLe term b c = true) : rankLe term a c = true := by
  rw [rankLe_iff] at h1 h2 ⊢
  rcases h1 with h1 | ⟨h1e, h1n⟩ <;> rcases h2 with h2 | ⟨h2e, h2n⟩
  · exact Or.inl (lt_trans h1 h2)
  · exact Or.inl (h2e ▸ h1)
  · exact Or.inl (h1e ▸ h2)
  · exact Or.inr ⟨h1e.trans h2e, le_trans h1n h2n⟩

/-- C9: the search result is built from a ranked phrase-match pass
followed, when the first pass fell short of the limit, by a
name-ordered pass of rows matching every query word and not already
returned.  Consequently the combined result never exceeds the limit,
contains no duplicate ids (given the table's primary-key uniqueness),
every first-pass row is a phrase match sorted by the
label-id-concept rank with ties broken by name, and every second-pass
row matches all words, is not a phrase match, and repeats no
first-pass id — so exact-phrase matches always precede word-only
matches. -/
theorem search_variables_two_pass (rows : List VRow) (term : String) (limit : Nat)
    (hids : (rows.map VRow.id).Nodup) :
    (search_variables rows term limit).length ≤ limit ∧
    ((search_variables rows term limit).map VRow.id).Nodup ∧
    ∃ l1 l2, search_variables rows term limit = l1 ++ l2 ∧
      (∀ r ∈ l1, phraseMatch term r = true) ∧
      l1.Pairwise (fun a b => rankLe term a b = true) ∧
      (∀ r ∈ l2, wordsMatch term r = true ∧ phraseMatch term r = false ∧
        r.id ∉ l1.map VRow.id) ∧
      l2.Pairwise (fun a b => nameLe a b = true) := by
  by_cases hw : (splitWs term).isEmpty = true
  · simp only [search_variables, if_pos hw]
    exact ⟨by simp, by simp, [], [], by simp, by simp, by simp, by simp, by simp⟩
  · simp only [search_variables, if_neg hw]
    have hfirst_phrase : ∀ r ∈ firstPass rows term limit, phraseMatch term r = true := by
      intro r hr
      have h1 : r ∈ sortLe (rankLe term) (rows.filter (phraseMatch term)) :=
        List.take_subset _ _ hr
      exact (List.mem_filter.mp ((mem_sortLe _ _ r).mp h1)).2
    have hfirst_pair :
        (firstPass rows term limit).Pairwise (fun a b => rankLe term a b = true) :=
      List.Pairwise.sublist (List.take_sublist _ _)
        (pairwise_sortLe _ (rankLe_total term) (rankLe_trans term) _)
    have hfirst_ids : ((firstPass rows term limit).map VRow.id).Nodup := by
      have h1 : (((rows.filter (phraseMatch term))).map VRow.id).Nodup :=
        List.Nodup.sublist (List.Sublist.map _ (List.filter_sublist _)) hids
      have h2 : ((sortLe (rankLe term) (rows.filter (phraseMatch term))).map VRow.id).Nodup :=
        (((perm_sortLe _ _).map VRow.id).nodup_iff).mpr h1
      exact List.Nodup.sublist (List.Sublist.map _ (List.take_sublist _ _)) h2
    have hfirst_len : (firstPass rows term limit).length ≤ limit := by
      rw [firstPass, List.length_take]
      exact min_le_left _ _
    by_cases hlt : (firstPass rows term limit).length < limit
    · rw [if_pos hlt]
      have hsec_mem : ∀ r ∈ secondPass rows term limit,
          wordsMatch term r = true ∧ r.id ∉ (firstPass rows term limit).map VRow.id ∧
            r ∈ rows := by
        intro r hr
        have h1 : r ∈ sortLe nameLe (rows.filter (fun r => wordsMatch term r &&
            !(((firstPass rows term limit).map VRow.id).contains r.id))) :=
          List.take_subset _ _ hr
        have h3 := List.mem_filter.mp ((mem_sortLe _ _ r).mp h1)
        have h4 := h3.2
        rw [Bool.and_eq_true, Bool.not_eq_true'] at h4
        exact ⟨h4.1, (contains_eq_false_iff _ _).mp h4.2, h3.1⟩
      have hfirst_all : firstPass rows term limit =
          sortLe (rankLe term) (rows.filter (phraseMatch term)) := by
        rw [firstPass]
        apply List.take_of_length_le
        have hl := hlt
        rw [firstPass, List.length_take] at hl
        by_contra hc
        push_neg at hc
        rw [min_eq_left (le_of_lt hc)] at hl
        exact lt_irrefl _ hl
      have hsec_phrase : ∀ r ∈ secondPass rows term limit, phraseMatch term r = false := by
        intro r hr
        rcases hsec_mem r hr with ⟨_, hnotin, hrows⟩
        by_contra hc
        rw [Bool.not_eq_false] at hc
        have hrS : r ∈ firstPass rows term limit := by
          rw [hfirst_all, mem_sortLe]
          exact List.mem_filter.mpr ⟨hrows, hc⟩
        exact hnotin (List.mem_map_of_mem VRow.id hrS)
      have hsec_pair : (secondPass rows term limit).Pairwise
          (fun a b => nameLe a b = true) :=
        List.Pairwise.sublist (List.take_sublist _ _)
          (pairwise_sortLe _ nameLe_total nameLe_trans _)
      have hsec_ids : ((secondPass rows term limit).map VRow.id).Nodup := by
        have h1 : ((rows.filter (fun r => wordsMatch term r &&
            !(((firstPass rows term limit).map VRow.id).contains r.id))).map VRow.id).Nodup :=
          List.Nodup.sublist (List.Sublist.map _ (List.filter_sublist _)) hids
        have h2 := (((perm_sortLe nameLe _).map VRow.id).nodup_iff).mpr h1
        exact List.Nodup.sublist (List.Sublist.map _ (List.take_sublist _ _)) h2
      have hsec_len : (secondPass rows term limit).length ≤
          limit - (firstPass rows term limit).length := by
        rw [secondPass, List.length_take]
        exact min_le_left _ _
      refine ⟨?_, ?_, firstPass rows term limit, secondPass rows term limit, rfl,
        hfirst_phrase, hfirst_pair, ?_, hsec_pair⟩
      · rw [List.length_append]
        omega
      · rw [List.map_append, List.nodup_append]
        refine ⟨hfirst_ids, hsec_ids, ?_⟩
        intro a ha hb
        rcases List.mem_map.mp hb with ⟨r2, hr2, rfl⟩
        exact (hsec_mem r2 hr2).2.1 ha
      · intro r hr
        exact ⟨(hsec_mem r hr).1, hsec_phrase r hr, (hsec_mem r hr).2.1⟩
    · rw [if_neg hlt]
      exact ⟨hfirst_len, hfirst_ids, firstPass rows term limit, [], by simp,
        hfirst_phrase, hfirst_pair, by simp, by simp⟩

theorem search_variables_two_pass_witness :
    (search_variables
      [⟨"B19013_001E", "median household income", "income", "B19013", 2023⟩,
       ⟨"X1", "household size", "x", "g", 2023⟩,
       ⟨"X2", "income of households", "y", "g", 2023⟩]
      "household income" 10).length ≤ 10 :=
  (search_variables_two_pass
    [⟨"B19013_001E", "median household income", "income", "B19013", 2023⟩,
     ⟨"X1", "household size", "x", "g", 2023⟩,
     ⟨"X2", "income of households", "y", "g", 2023⟩]
    "household income" 10 (by decide)).1

end CensusApp
